import Mathlib

/-
Verification of the authorization-and-dispatch pipeline of the jishuhost bot
(src/main.py).  The Python source is shallowly embedded: the token registry
and the authorization ledger become pure functions over association lists,
the universal message handler becomes a pure function from the inbound
message, the configuration state and the platform environment (which supplies
the results of the platform calls the handler makes) to the list of observable
platform effects it performs, and the dispatch send loop becomes a pure
function from the per-send platform outcomes to the success count and the
effect trace.
-/

/-- Python dict user_secret_codes, a mapping of secret-code string to user id,
embedded as an association list in insertion order (dict keys are unique,
which the generating code guarantees by only inserting fresh keys). -/
abbrev TokenTable := List (String × Int)

namespace BotConfig

/-- Python membership test code in codes (dict key membership),
used at src/main.py lines 198 and 211. -/
def hasCode (codes : TokenTable) (code : String) : Bool :=
  codes.any (fun p => p.1 == code)

/-- BotConfig.get_user_id_from_code, src/main.py lines 204-206:
return self.user_secret_codes.get(code). -/
def get_user_id_from_code (codes : TokenTable) (code : String) : Option Int :=
  (codes.find? (fun p => p.1 == code)).map (fun p => p.2)

/-- BotConfig.generate_secret_code, src/main.py lines 192-202.  The source
draws candidate codes from secrets.token_urlsafe(16) and loops while the
candidate collides with an existing key; the random stream is embedded as an
explicit candidate list, and none is returned only when that finite list is
exhausted (the source would keep sampling).  On the first fresh candidate the
binding codes[code] = user_id is a fresh-key dict insert, i.e. an append. -/
def generate_secret_code (codes : TokenTable) (user_id : Int) :
    List String → Option (String × TokenTable)
  | [] => none
  | c :: rest =>
    if hasCode codes c then generate_secret_code codes user_id rest
    else some (c, codes ++ [(c, user_id)])

/-- BotConfig.revoke_secret_code, src/main.py lines 208-215: delete the key
if present and report whether it existed.  del codes[code] removes the single
entry holding that key, i.e. eraseP on the key predicate. -/
def revoke_secret_code (codes : TokenTable) (code : String) : TokenTable × Bool :=
  if hasCode codes code then (codes.eraseP (fun p => p.1 == code), true)
  else (codes, false)

/-- A registry mutation: either an issue (gen, with its candidate stream) or a
revocation, the only two operations of the source that touch the token table. -/
inductive RegOp where
  | gen (user_id : Int) (cands : List String)
  | rev (code : String)
deriving DecidableEq

/-- Effect of one registry operation on the token table. -/
def applyRegOp (codes : TokenTable) : RegOp → TokenTable
  | .gen uid cands =>
    match generate_secret_code codes uid cands with
    | some r => r.2
    | none => codes
  | .rev c => (revoke_secret_code codes c).1

end BotConfig

namespace BotConfig

theorem generate_spec (uid : Int) (t : String) (codes codes2 : TokenTable) :
    ∀ cands, generate_secret_code codes uid cands = some (t, codes2) →
      hasCode codes t = false ∧ codes2 = codes ++ [(t, uid)] := by
  intro cands
  induction cands with
  | nil => intro h; simp [generate_secret_code] at h
  | cons c rest ih =>
    intro h
    by_cases hc : hasCode codes c
    · exact ih (by simpa [generate_secret_code, hc] using h)
    · simp [generate_secret_code, hc] at h
      obtain ⟨rfl, rfl⟩ := h
      exact ⟨by simpa using hc, rfl⟩

theorem hasCode_eq_false_iff (codes : TokenTable) (t : String) :
    hasCode codes t = false ↔ codes.find? (fun p => p.1 == t) = none := by
  constructor
  · intro h
    rw [List.find?_eq_none]
    intro x hx hpx
    have hany : hasCode codes t = true := by
      rw [hasCode, List.any_eq_true]
      exact ⟨x, hx, hpx⟩
    rw [h] at hany
    exact Bool.noConfusion hany
  · intro h
    cases hc : hasCode codes t with
    | false => rfl
    | true =>
      obtain ⟨x, hx, hpx⟩ := List.any_eq_true.mp hc
      have := List.find?_eq_none.mp h x hx
      simp [hpx] at this

theorem find?_eraseP_of_disjoint {α : Type} (p q : α → Bool)
    (h : ∀ x, q x = true → p x = false) :
    ∀ l : List α, (l.eraseP q).find? p = l.find? p := by
  intro l
  induction l with
  | nil => rfl
  | cons a l ih =>
    by_cases hq : q a
    · simp [List.eraseP_cons, hq, List.find?_cons, h a hq]
    · simp only [List.eraseP_cons, hq, Bool.false_eq_true, if_false, List.find?_cons]
      cases hp : p a <;> simp [hp, ih]

theorem countP_eraseP_of_disjoint {α : Type} (p q : α → Bool)
    (h : ∀ x, q x = true → p x = false) :
    ∀ l : List α, (l.eraseP q).countP p = l.countP p := by
  intro l
  induction l with
  | nil => rfl
  | cons a l ih =>
    by_cases hq : q a
    · simp [List.eraseP_cons, hq, List.countP_cons, h a hq]
    · simp only [List.eraseP_cons, hq, Bool.false_eq_true, if_false]
      simp [List.countP_cons, ih]

theorem countP_eraseP_self {α : Type} (p : α → Bool) :
    ∀ l : List α, (l.eraseP p).countP p = l.countP p - 1 := by
  intro l
  induction l with
  | nil => rfl
  | cons a l ih =>
    by_cases hp : p a
    · rw [List.eraseP_cons_of_pos hp, List.countP_cons]
      simp [hp]
    · rw [List.eraseP_cons_of_neg (by simp [hp]), List.countP_cons, List.countP_cons, ih,
        if_neg hp]
      omega

theorem countP_eq_zero_find?_eq_none {α : Type} (p : α → Bool) (l : List α)
    (h : l.countP p = 0) : l.find? p = none := by
  rw [List.find?_eq_none]
  intro x hx hpx
  have := List.countP_eq_zero.mp h x hx
  simp [hpx] at this

/-- Token-table invariant tracked along a run: the first (and only) entry with
key t carries uid. -/
def TokenInv (t : String) (uid : Int) (s : TokenTable) : Prop :=
  s.find? (fun p => p.1 == t) = some (t, uid) ∧
  s.countP (fun p => p.1 == t) = 1

theorem tokenInv_lookup {t : String} {uid : Int} {s : TokenTable}
    (h : TokenInv t uid s) : get_user_id_from_code s t = some uid := by
  simp [get_user_id_from_code, h.1]

theorem tokenInv_append_singleton {t : String} {uid : Int} {s : TokenTable}
    (h : TokenInv t uid s) (c : String) (uid2 : Int) (hne : c ≠ t) :
    TokenInv t uid (s ++ [(c, uid2)]) := by
  constructor
  · rw [List.find?_append, h.1]; rfl
  · rw [List.countP_append, h.2]
    simp [List.countP_cons, hne]

theorem tokenInv_init {t : String} {uid : Int} {codes : TokenTable}
    (h : hasCode codes t = false) : TokenInv t uid (codes ++ [(t, uid)]) := by
  have hnone := (hasCode_eq_false_iff codes t).mp h
  constructor
  · rw [List.find?_append, hnone]
    simp
  · rw [List.countP_append]
    have h0 : codes.countP (fun p => p.1 == t) = 0 := by
      rw [List.countP_eq_zero]
      intro x hx hpx
      have : codes.find? (fun p => p.1 == t) ≠ none := by
        rw [← Option.isSome_iff_ne_none, List.find?_isSome]
        exact ⟨x, hx, hpx⟩
      exact this hnone
    simp [h0, List.countP_cons]

theorem tokenInv_applyRegOp {t : String} {uid : Int} {s : TokenTable}
    (h : TokenInv t uid s) (op : RegOp) (hop : op ≠ RegOp.rev t) :
    TokenInv t uid (applyRegOp s op) := by
  cases op with
  | gen uid2 cands =>
    simp only [applyRegOp]
    cases hg : generate_secret_code s uid2 cands with
    | none => exact h
    | some r =>
      obtain ⟨c, s2⟩ := r
      obtain ⟨hfresh, rfl⟩ := generate_spec uid2 c s s2 cands hg
      have hne : c ≠ t := by
        intro hct
        subst hct
        have h1 := h.1
        rw [(hasCode_eq_false_iff s c).mp hfresh] at h1
        exact Option.noConfusion h1
      exact tokenInv_append_singleton h c uid2 hne
  | rev c =>
    have hne : c ≠ t := fun hct => hop (by rw [hct])
    simp only [applyRegOp, revoke_secret_code]
    by_cases hc : hasCode s c
    · simp only [hc, if_true]
      have hdisj : ∀ x : String × Int, (x.1 == c) = true → (x.1 == t) = false := by
        intro x hx
        rw [beq_iff_eq] at hx
        rw [beq_eq_false_iff_ne, hx]
        exact hne
      exact ⟨by rw [find?_eraseP_of_disjoint _ _ hdisj]; exact h.1,
             by rw [countP_eraseP_of_disjoint _ _ hdisj]; exact h.2⟩
    · simpa [hc] using h

theorem tokenInv_foldl {t : String} {uid : Int} (ops : List BotConfig.RegOp)
    (hops : BotConfig.RegOp.rev t ∉ ops) :
    ∀ s : TokenTable, TokenInv t uid s →
      TokenInv t uid (ops.foldl applyRegOp s) := by
  induction ops with
  | nil => intro s h; exact h
  | cons op rest ih =>
    intro s h
    have hop : op ≠ RegOp.rev t := fun he => hops (he ▸ List.mem_cons_self op rest)
    have hrest : RegOp.rev t ∉ rest := fun he => hops (List.mem_cons_of_mem op he)
    exact ih hrest _ (tokenInv_applyRegOp h op hop)

theorem tokenInv_revoke_lookup {t : String} {uid : Int} {s : TokenTable}
    (h : TokenInv t uid s) :
    get_user_id_from_code (revoke_secret_code s t).1 t = none ∧
    (revoke_secret_code s t).2 = true := by
  have hsome : hasCode s t = true := by
    cases hhc : hasCode s t with
    | true => rfl
    | false =>
      have h1 := h.1
      rw [(hasCode_eq_false_iff s t).mp hhc] at h1
      exact Option.noConfusion h1
  refine ⟨?_, by simp [revoke_secret_code, hsome]⟩
  simp only [revoke_secret_code, hsome, if_true]
  have hz : (s.eraseP (fun p => p.1 == t)).countP (fun p => p.1 == t) = 0 := by
    rw [countP_eraseP_self, h.2]
  simp [get_user_id_from_code, countP_eq_zero_find?_eq_none _ _ hz]

end BotConfig

namespace BotConfig

/-- BotConfig.add_authorized_user, src/main.py lines 178-183: append unless
already present or equal to the owner. -/
def add_authorized_user (owner_id : Int) (users : List Int) (user_id : Int) : List Int :=
  if user_id ∉ users ∧ user_id ≠ owner_id then users ++ [user_id] else users

/-- BotConfig.remove_authorized_user, src/main.py lines 185-190: remove the
first occurrence unless absent or equal to the owner. -/
def remove_authorized_user (owner_id : Int) (users : List Int) (user_id : Int) : List Int :=
  if user_id ∈ users ∧ user_id ≠ owner_id then users.erase user_id else users

/-- BotConfig.__init__, src/main.py lines 80-86: on startup the owner id is
appended to authorized_users when absent. -/
def startup_ensure_owner (owner_id : Int) (users : List Int) : List Int :=
  if owner_id ∉ users then users ++ [owner_id] else users

/-- A mutation of the authorized-users ledger: the only two operations of the
source that change the list after startup. -/
inductive LedgerOp where
  | addUser (user_id : Int)
  | removeUser (user_id : Int)

/-- Effect of one ledger operation. -/
def applyLedgerOp (owner_id : Int) (users : List Int) : LedgerOp → List Int
  | .addUser uid => add_authorized_user owner_id users uid
  | .removeUser uid => remove_authorized_user owner_id users uid

theorem owner_mem_applyLedgerOp (owner_id : Int) (users : List Int)
    (op : LedgerOp) (h : owner_id ∈ users) :
    owner_id ∈ applyLedgerOp owner_id users op := by
  cases op with
  | addUser uid =>
    simp only [applyLedgerOp, add_authorized_user]
    split
    · exact List.mem_append_left _ h
    · exact h
  | removeUser uid =>
    simp only [applyLedgerOp, remove_authorized_user]
    split
    · next hc =>
      have hne : owner_id ≠ uid := fun he => hc.2 (he ▸ rfl)
      exact (List.mem_erase_of_ne hne).mpr h
    · exact h

theorem owner_mem_startup (owner_id : Int) (users : List Int) :
    owner_id ∈ startup_ensure_owner owner_id users := by
  simp only [startup_ensure_owner]
  split
  · exact List.mem_append_right _ (List.mem_singleton.mpr rfl)
  · next hc => simpa using hc

theorem owner_mem_foldl (owner_id : Int) (ops : List LedgerOp) :
    ∀ users : List Int, owner_id ∈ users →
      owner_id ∈ ops.foldl (applyLedgerOp owner_id) users := by
  induction ops with
  | nil => intro users h; exact h
  | cons op rest ih =>
    intro users h
    exact ih _ (owner_mem_applyLedgerOp owner_id users op h)

end BotConfig

/-- C3: a token issued by generate_secret_code resolves via
get_user_id_from_code to the bound account, and keeps doing so across any
finite sequence of later registry operations that never revokes it; revoking
it afterwards makes it resolve to none and reports true; in general revoke
reports true exactly when the token is present and is a no-op returning false
on an unknown token. -/
theorem C3_token_lifecycle
    (codes : TokenTable) (uid : Int) (cands : List String) (t : String)
    (codes2 : TokenTable) (ops : List BotConfig.RegOp)
    (cs : TokenTable) (c : String)
    (hgen : BotConfig.generate_secret_code codes uid cands = some (t, codes2))
    (hops : BotConfig.RegOp.rev t ∉ ops) :
    BotConfig.get_user_id_from_code codes2 t = some uid ∧
    BotConfig.get_user_id_from_code (ops.foldl BotConfig.applyRegOp codes2) t = some uid ∧
    BotConfig.get_user_id_from_code
      (BotConfig.revoke_secret_code (ops.foldl BotConfig.applyRegOp codes2) t).1 t = none ∧
    (BotConfig.revoke_secret_code (ops.foldl BotConfig.applyRegOp codes2) t).2 = true ∧
    ((BotConfig.revoke_secret_code cs c).2 = true ↔
      BotConfig.get_user_id_from_code cs c ≠ none) ∧
    (BotConfig.get_user_id_from_code cs c = none →
      BotConfig.revoke_secret_code cs c = (cs, false)) := by
  obtain ⟨hfresh, rfl⟩ := BotConfig.generate_spec uid t codes codes2 cands hgen
  have hinv : BotConfig.TokenInv t uid (codes ++ [(t, uid)]) :=
    BotConfig.tokenInv_init hfresh
  have hinv2 := BotConfig.tokenInv_foldl ops hops _ hinv
  have hlookup_none : BotConfig.get_user_id_from_code cs c = none ↔
      BotConfig.hasCode cs c = false := by
    rw [BotConfig.hasCode_eq_false_iff]
    simp [BotConfig.get_user_id_from_code, Option.map_eq_none']
  refine ⟨BotConfig.tokenInv_lookup hinv, BotConfig.tokenInv_lookup hinv2,
    (BotConfig.tokenInv_revoke_lookup hinv2).1, (BotConfig.tokenInv_revoke_lookup hinv2).2,
    ?_, ?_⟩
  · cases hc : BotConfig.hasCode cs c with
    | true =>
      simp only [BotConfig.revoke_secret_code, hc, if_true]
      have : ¬ BotConfig.get_user_id_from_code cs c = none := by
        intro hn
        rw [hlookup_none.mp hn] at hc
        exact Bool.noConfusion hc
      simpa using this
    | false =>
      simp only [BotConfig.revoke_secret_code, hc, Bool.false_eq_true, if_false]
      simpa using hlookup_none.mpr hc
  · intro hn
    simp [BotConfig.revoke_secret_code, hlookup_none.mp hn]

/-- Witness for C3 at a concrete run: issue tokA for account 7 into an empty
table, then issue tokB for account 9 and revoke tokB; tokA still resolves to
7, revoking tokA then resolves to none. -/
theorem C3_token_lifecycle_witness :
    BotConfig.get_user_id_from_code [("tokA", 7)] "tokA" = some 7 ∧
    BotConfig.get_user_id_from_code
      ([BotConfig.RegOp.gen 9 ["tokB"], BotConfig.RegOp.rev "tokB"].foldl
        BotConfig.applyRegOp [("tokA", 7)]) "tokA" = some 7 ∧
    BotConfig.get_user_id_from_code
      (BotConfig.revoke_secret_code
        ([BotConfig.RegOp.gen 9 ["tokB"], BotConfig.RegOp.rev "tokB"].foldl
          BotConfig.applyRegOp [("tokA", 7)]) "tokA").1 "tokA" = none ∧
    (BotConfig.revoke_secret_code
      ([BotConfig.RegOp.gen 9 ["tokB"], BotConfig.RegOp.rev "tokB"].foldl
        BotConfig.applyRegOp [("tokA", 7)]) "tokA").2 = true ∧
    ((BotConfig.revoke_secret_code [("tokA", 7)] "nope").2 = true ↔
      BotConfig.get_user_id_from_code [("tokA", 7)] "nope" ≠ none) ∧
    (BotConfig.get_user_id_from_code [("tokA", 7)] "nope" = none →
      BotConfig.revoke_secret_code [("tokA", 7)] "nope" = ([("tokA", 7)], false)) :=
  C3_token_lifecycle [] 7 ["tokA"] "tokA" [("tokA", 7)]
    [BotConfig.RegOp.gen 9 ["tokB"], BotConfig.RegOp.rev "tokB"] [("tokA", 7)] "nope"
    (by decide) (by decide)

/-- C10: issuing a token appends exactly one new binding (the fresh token
mapped to the given account), leaves every pre-existing binding unchanged,
and a second issue for any account leaves the first token resolving to its
original account. -/
theorem C10_issue_adds_one_binding
    (codes : TokenTable) (uid : Int) (cands : List String) (t : String)
    (codes2 : TokenTable) (c : String) (uid2 : Int) (cands2 : List String)
    (t2 : String) (codes3 : TokenTable)
    (hgen : BotConfig.generate_secret_code codes uid cands = some (t, codes2))
    (hne : c ≠ t)
    (hgen2 : BotConfig.generate_secret_code codes2 uid2 cands2 = some (t2, codes3)) :
    codes2 = codes ++ [(t, uid)] ∧
    BotConfig.hasCode codes t = false ∧
    BotConfig.get_user_id_from_code codes2 t = some uid ∧
    BotConfig.get_user_id_from_code codes2 c = BotConfig.get_user_id_from_code codes c ∧
    BotConfig.get_user_id_from_code codes3 t = some uid := by
  obtain ⟨hfresh, rfl⟩ := BotConfig.generate_spec uid t codes codes2 cands hgen
  have hinv : BotConfig.TokenInv t uid (codes ++ [(t, uid)]) :=
    BotConfig.tokenInv_init hfresh
  obtain ⟨hfresh2, rfl⟩ :=
    BotConfig.generate_spec uid2 t2 (codes ++ [(t, uid)]) codes3 cands2 hgen2
  have hne2 : t2 ≠ t := by
    intro hct
    subst hct
    have h1 := hinv.1
    rw [(BotConfig.hasCode_eq_false_iff _ t2).mp hfresh2] at h1
    exact Option.noConfusion h1
  refine ⟨rfl, hfresh, BotConfig.tokenInv_lookup hinv, ?_,
    BotConfig.tokenInv_lookup (BotConfig.tokenInv_append_singleton hinv t2 uid2 hne2)⟩
  simp only [BotConfig.get_user_id_from_code, List.find?_append]
  have hsingle : ([(t, uid)].find? (fun p => p.1 == c)) = none := by
    simp [List.find?_cons, beq_eq_false_iff_ne, Ne.symm hne]
  rw [hsingle, Option.or_none]

/-- Witness for C10: issue tokA for 7 into an empty table, then tokB for 7;
tokA still resolves to 7 and unrelated lookups are unchanged. -/
theorem C10_issue_adds_one_binding_witness :
    ([("tokA", 7)] : TokenTable) = [] ++ [("tokA", 7)] ∧
    BotConfig.hasCode [] "tokA" = false ∧
    BotConfig.get_user_id_from_code [("tokA", 7)] "tokA" = some 7 ∧
    BotConfig.get_user_id_from_code [("tokA", 7)] "other" =
      BotConfig.get_user_id_from_code [] "other" ∧
    BotConfig.get_user_id_from_code [("tokA", 7), ("tokB", 7)] "tokA" = some 7 :=
  C10_issue_adds_one_binding [] 7 ["tokA"] "tokA" [("tokA", 7)] "other" 7 ["tokB"]
    "tokB" [("tokA", 7), ("tokB", 7)]
    (by decide) (by decide) (by decide)

/-- C4: the owner account id is a member of authorized_users right after the
startup fixup and stays a member after every finite sequence of
add_authorized_user / remove_authorized_user calls. -/
theorem C4_owner_always_authorized (owner_id : Int) (users0 : List Int)
    (ops : List BotConfig.LedgerOp) :
    owner_id ∈ ops.foldl (BotConfig.applyLedgerOp owner_id)
      (BotConfig.startup_ensure_owner owner_id users0) :=
  BotConfig.owner_mem_foldl owner_id ops _
    (BotConfig.owner_mem_startup owner_id users0)

/-- Loop body of the pool construction, src/main.py lines 974-977: at every
index i with i % len(messages) == 0 the source draws a fresh full permutation
via random.sample(messages, len(messages)) and extends the pool with it.  The
random stream is embedded as the function shuffles, indexed by how many
permutations have been drawn so far (the counter in the accumulator). -/
def poolStep (shuffles : Nat → List String) (n : Nat)
    (acc : List String × Nat) (i : Nat) : List String × Nat :=
  if i % n = 0 then (acc.1 ++ shuffles acc.2, acc.2 + 1) else acc

/-- Pool construction, src/main.py lines 973-979: run the loop over
range(quantity) and truncate the accumulated pool to exactly quantity. -/
def build_message_pool (shuffles : Nat → List String) (messages : List String)
    (quantity : Nat) : List String :=
  (((List.range quantity).foldl (poolStep shuffles messages.length)
      ([], 0)).1).take quantity

theorem flatten_map_length (f : Nat → List String) (n : Nat)
    (hlen : ∀ i, (f i).length = n) :
    ∀ k, (((List.range k).map f).flatten).length = n * k := by
  intro k
  induction k with
  | zero => rfl
  | succ k ih =>
    rw [List.range_succ, List.map_append, List.flatten_append, List.length_append, ih]
    simp [hlen k, Nat.mul_succ]

theorem flatten_map_drop_take (f : Nat → List String) (n : Nat)
    (hlen : ∀ i, (f i).length = n) :
    ∀ k j, j < k →
      (((((List.range k).map f).flatten).drop (j * n)).take n = f j) := by
  intro k
  induction k with
  | zero => intro j hj; omega
  | succ k ih =>
    intro j hj
    rw [List.range_succ, List.map_append, List.flatten_append]
    simp only [List.map_cons, List.map_nil, List.flatten_cons, List.flatten_nil,
      List.append_nil]
    have hlenA : (((List.range k).map f).flatten).length = n * k :=
      flatten_map_length f n hlen k
    by_cases hjk : j < k
    · have hle : j * n + n ≤ n * k := by
        have h1 : (j + 1) * n ≤ k * n := Nat.mul_le_mul_right n hjk
        rw [Nat.succ_mul] at h1
        have h2 : k * n = n * k := Nat.mul_comm k n
        omega
      rw [List.drop_append_of_le_length (by omega)]
      rw [List.take_append_of_le_length (by rw [List.length_drop]; omega)]
      exact ih j hjk
    · have hj' : j = k := by omega
      subst hj'
      have : j * n = (((List.range j).map f).flatten).length := by
        rw [hlenA, Nat.mul_comm]
      rw [this, List.drop_left]
      exact List.take_of_length_le (by rw [hlen j])

theorem poolState_spec (shuffles : Nat → List String) (n : Nat) (hn : 1 ≤ n) :
    ∀ q : Nat, ∃ k : Nat,
      (List.range q).foldl (poolStep shuffles n) ([], 0) =
        (((List.range k).map shuffles).flatten, k) ∧
      q ≤ n * k ∧ n * k ≤ q + (n - 1) := by
  intro q
  induction q with
  | zero => exact ⟨0, rfl, by omega, by omega⟩
  | succ q ih =>
    obtain ⟨k, hfold, hlb, hub⟩ := ih
    rw [List.range_succ, List.foldl_append, hfold]
    simp only [List.foldl_cons, List.foldl_nil]
    by_cases hq : q % n = 0
    · obtain ⟨m, rfl⟩ := Nat.dvd_of_mod_eq_zero hq
      have hkm : k = m := by
        have h1 : m ≤ k := Nat.le_of_mul_le_mul_left hlb (by omega)
        have h2 : n * k < n * (m + 1) := by rw [Nat.mul_succ]; omega
        have h3 : k < m + 1 := Nat.lt_of_mul_lt_mul_left h2
        omega
      subst hkm
      refine ⟨k + 1, ?_, ?_, ?_⟩
      · simp only [poolStep, hq, if_pos (Nat.mul_mod_right n k)]
        rw [List.range_succ, List.map_append, List.flatten_append]
        simp
      · rw [Nat.mul_succ]; omega
      · rw [Nat.mul_succ]; omega
    · refine ⟨k, ?_, ?_, ?_⟩
      · simp only [poolStep, if_neg hq]
      · have : q ≠ n * k := by
          intro he; rw [he] at hq; exact hq (Nat.mul_mod_right n k)
        omega
      · omega

/-- C5: for quantity q in [1,100] and a duplicate-free template list, the
constructed pool has length exactly q, and every full block of
length(messages) consecutive positions starting at a multiple of
length(messages) that lies within the pool contains each template exactly
once.  The permutations drawn by random.sample are quantified over all
functions shuffles producing permutations of the template list. -/
theorem C5_pool_full_cycle (shuffles : Nat → List String) (messages : List String)
    (q j : Nat) (t : String)
    (hnd : messages.Nodup) (hq1 : 1 ≤ q) (hq100 : q ≤ 100)
    (hperm : ∀ i, (shuffles i).Perm messages)
    (hblock : (j + 1) * messages.length ≤ q) (ht : t ∈ messages) :
    (build_message_pool shuffles messages q).length = q ∧
    (((build_message_pool shuffles messages q).drop (j * messages.length)).take
        messages.length).count t = 1 := by
  have hn : 1 ≤ messages.length := List.length_pos.mpr (List.ne_nil_of_mem ht)
  have hlen : ∀ i, (shuffles i).length = messages.length := fun i => (hperm i).length_eq
  obtain ⟨k, hfold, hlb, hub⟩ := poolState_spec shuffles messages.length hn q
  have hfull_len : (((List.range k).map shuffles).flatten).length = messages.length * k :=
    flatten_map_length shuffles messages.length hlen k
  have hjn : j * messages.length + messages.length ≤ q := by
    have := hblock; rw [Nat.succ_mul] at this; omega
  constructor
  · unfold build_message_pool
    rw [hfold, List.length_take, hfull_len]
    omega
  · unfold build_message_pool
    rw [hfold]
    simp only
    rw [List.drop_take, List.take_take]
    have hmin : messages.length ⊓ (q - j * messages.length) = messages.length := by omega
    rw [hmin]
    have hjk : j < k := by
      have h1 : (j + 1) * messages.length ≤ messages.length * k := le_trans hblock hlb
      rw [Nat.mul_comm] at h1
      have h2 : j + 1 ≤ k := Nat.le_of_mul_le_mul_left h1 (by omega)
      omega
    rw [flatten_map_drop_take shuffles messages.length hlen k j hjk]
    rw [(hperm j).count_eq]
    exact List.count_eq_one_of_mem hnd ht

/-- Witness for C5: q = 3 with two templates; the pool is some permutation of
the two templates followed by the head of a fresh permutation, so the first
block of size 2 holds each template once. -/
theorem C5_pool_full_cycle_witness :
    (build_message_pool (fun _ => ["a", "b"]) ["a", "b"] 3).length = 3 ∧
    (((build_message_pool (fun _ => ["a", "b"]) ["a", "b"] 3).drop (0 * 2)).take
        2).count "a" = 1 :=
  C5_pool_full_cycle (fun _ => ["a", "b"]) ["a", "b"] 3 0 "a"
    (by decide) (by decide) (by decide)
    (fun _ => List.Perm.refl _) (by decide) (by decide)

/-- Which transient warning text the handler posts: the three reply_text
warnings at src/main.py lines 841 (invalid secret code), 870 (sender id does
not match the code) and 902 (linked user not authorized). -/
inductive WarnKind where
  | invalidCode
  | senderMismatch
  | notAuthorized
deriving DecidableEq

/-- Observable platform effects of one pass of the universal message handler:
a best-effort delete_messages request (whose failure the source catches and
swallows), a transient warning reply, the informational reply in private
chat, an asyncio.sleep, the randomized sub-second pause after a successful
send, and a send_message attempt. -/
inductive Event where
  | deleteReq (chatId : Int) (msgId : Nat)
  | warn (kind : WarnKind) (msgId : Nat)
  | replyHelp
  | sleep (secs : Nat)
  | randPause
  | sendAttempt (text : String)
deriving DecidableEq

/-- Result of one client.send_message call as signaled by the platform,
matching the except arms at src/main.py lines 995-1004. -/
inductive SendOutcome where
  | success
  | floodWait (secs : Nat)
  | writeForbidden
  | otherError
deriving DecidableEq

/-- Substitution of the single mention placeholder: the embedding of
msg_text.format(mention=mention) at src/main.py line 984. -/
def formatMention (msgText mention : String) : String :=
  msgText.replace "\x7bmention\x7d" mention

/-- Send loop, src/main.py lines 981-1004: per pooled template, substitute
the mention and attempt the send.  A FloodWait sleeps the reported seconds
and moves on without retrying the failed item, ChatWriteForbidden breaks out
of the loop, any other error moves on, and a success increments
success_count and pauses briefly.  The index i tracks the position in the
pool so the per-attempt platform outcome can be looked up. -/
def send_spam_loop (outcomes : Nat → SendOutcome) (mention : String) :
    Nat → List String → Nat × List Event
  | _, [] => (0, [])
  | i, msgText :: rest =>
    let fmt := formatMention msgText mention
    match outcomes i with
    | .success =>
      let r := send_spam_loop outcomes mention (i + 1) rest
      (r.1 + 1, Event.sendAttempt fmt :: Event.randPause :: r.2)
    | .floodWait d =>
      let r := send_spam_loop outcomes mention (i + 1) rest
      (r.1, Event.sendAttempt fmt :: Event.sleep d :: r.2)
    | .writeForbidden => (0, [Event.sendAttempt fmt])
    | .otherError =>
      let r := send_spam_loop outcomes mention (i + 1) rest
      (r.1, Event.sendAttempt fmt :: r.2)

/-- Specification-side count of pool items the loop processes before
stopping: all of them, or up to and including the first write-forbidden
outcome. -/
def processedCount (outcomes : Nat → SendOutcome) : Nat → List String → Nat
  | _, [] => 0
  | i, _ :: rest =>
    match outcomes i with
    | .writeForbidden => 1
    | _ => processedCount outcomes (i + 1) rest + 1

/-- Specification-side events contributed by one processed item. -/
def itemEvents (fmt : String) : SendOutcome → List Event
  | .success => [Event.sendAttempt fmt, Event.randPause]
  | .floodWait d => [Event.sendAttempt fmt, Event.sleep d]
  | .writeForbidden => [Event.sendAttempt fmt]
  | .otherError => [Event.sendAttempt fmt]

def isSuccess : SendOutcome → Bool
  | .success => true
  | _ => false

theorem processedCount_le (outcomes : Nat → SendOutcome) :
    ∀ (pool : List String) (i : Nat), processedCount outcomes i pool ≤ pool.length := by
  intro pool
  induction pool with
  | nil => intro i; simp [processedCount]
  | cons x rest ih =>
    intro i
    have h := ih (i + 1)
    cases ho : outcomes i <;>
      simp only [processedCount, ho, List.length_cons] <;> omega

theorem countP_range_succ_shift (p : Nat → Bool) (k : Nat) :
    (List.range (k + 1)).countP p =
      (List.range k).countP (fun j => p (j + 1)) + (if p 0 then 1 else 0) := by
  rw [List.range_succ_eq_map, List.countP_cons, List.countP_map]
  rfl

theorem flatMap_range_succ_shift {β : Type} (f : Nat → List β) (k : Nat) :
    (List.range (k + 1)).flatMap f =
      f 0 ++ (List.range k).flatMap (fun j => f (j + 1)) := by
  rw [List.range_succ_eq_map, List.flatMap_cons, List.flatMap_map]

theorem send_spam_loop_count (outcomes : Nat → SendOutcome) (mention : String) :
    ∀ (pool : List String) (i : Nat),
      (send_spam_loop outcomes mention i pool).1 =
        (List.range (processedCount outcomes i pool)).countP
          (fun j => isSuccess (outcomes (i + j))) := by
  intro pool
  induction pool with
  | nil => intro i; simp [send_spam_loop, processedCount]
  | cons x rest ih =>
    intro i
    have hfun : (fun j => isSuccess (outcomes (i + (j + 1)))) =
        (fun j => isSuccess (outcomes (i + 1 + j))) := by
      funext j
      have harg : i + (j + 1) = i + 1 + j := by omega
      rw [harg]
    cases ho : outcomes i with
    | success =>
      simp only [send_spam_loop, ho, processedCount]
      simp only [countP_range_succ_shift]
      rw [hfun, ← ih (i + 1)]
      simp [ho, isSuccess]
    | floodWait d =>
      simp only [send_spam_loop, ho, processedCount]
      simp only [countP_range_succ_shift]
      rw [hfun, ← ih (i + 1)]
      simp [ho, isSuccess]
    | writeForbidden =>
      simp [send_spam_loop, ho, processedCount, isSuccess, List.range_succ]
    | otherError =>
      simp only [send_spam_loop, ho, processedCount]
      simp only [countP_range_succ_shift]
      rw [hfun, ← ih (i + 1)]
      simp [ho, isSuccess]

theorem send_spam_loop_count_le (outcomes : Nat → SendOutcome) (mention : String) :
    ∀ (pool : List String) (i : Nat),
      (send_spam_loop outcomes mention i pool).1 ≤ pool.length := by
  intro pool
  induction pool with
  | nil => intro i; simp [send_spam_loop]
  | cons x rest ih =>
    intro i
    have h := ih (i + 1)
    cases ho : outcomes i <;>
      simp only [send_spam_loop, ho, List.length_cons] <;> omega

theorem send_spam_loop_trace (outcomes : Nat → SendOutcome) (mention : String) :
    ∀ (pool : List String) (i : Nat),
      (send_spam_loop outcomes mention i pool).2 =
        (List.range (processedCount outcomes i pool)).flatMap
          (fun j => itemEvents (formatMention (pool.getD j "") mention)
            (outcomes (i + j))) := by
  intro pool
  induction pool with
  | nil => intro i; simp [send_spam_loop, processedCount]
  | cons x rest ih =>
    intro i
    have hfun : (fun j => itemEvents (formatMention ((x :: rest).getD (j + 1) "") mention)
          (outcomes (i + (j + 1)))) =
        (fun j => itemEvents (formatMention (rest.getD j "") mention)
          (outcomes (i + 1 + j))) := by
      funext j
      have harg : i + (j + 1) = i + 1 + j := by omega
      rw [harg, List.getD_cons_succ]
    cases ho : outcomes i with
    | success =>
      simp only [send_spam_loop, ho, processedCount]
      simp only [flatMap_range_succ_shift]
      rw [hfun, ← ih (i + 1)]
      simp [ho, itemEvents]
    | floodWait d =>
      simp only [send_spam_loop, ho, processedCount]
      simp only [flatMap_range_succ_shift]
      rw [hfun, ← ih (i + 1)]
      simp [ho, itemEvents]
    | writeForbidden =>
      simp [send_spam_loop, ho, processedCount, itemEvents, List.range_succ]
    | otherError =>
      simp only [send_spam_loop, ho, processedCount]
      simp only [flatMap_range_succ_shift]
      rw [hfun, ← ih (i + 1)]
      simp [ho, itemEvents]

/-- C9: in the dispatch send loop, the processed items are exactly the pool
prefix up to and including the first write-forbidden outcome (or the whole
pool), each processed item is attempted exactly once in order with a
flood-wait contributing a sleep of exactly the reported duration and no
retry, and the final success count equals the number of successful sends,
which is at most the pool length (the requested quantity). -/
theorem C9_send_loop_failure_handling (outcomes : Nat → SendOutcome)
    (mention : String) (pool : List String) (i : Nat) :
    (send_spam_loop outcomes mention i pool).1 =
      (List.range (processedCount outcomes i pool)).countP
        (fun j => isSuccess (outcomes (i + j))) ∧
    (send_spam_loop outcomes mention i pool).1 ≤ pool.length ∧
    processedCount outcomes i pool ≤ pool.length ∧
    (send_spam_loop outcomes mention i pool).2 =
      (List.range (processedCount outcomes i pool)).flatMap
        (fun j => itemEvents (formatMention (pool.getD j "") mention)
          (outcomes (i + j))) :=
  ⟨send_spam_loop_count outcomes mention pool i,
   send_spam_loop_count_le outcomes mention pool i,
   processedCount_le outcomes pool i,
   send_spam_loop_trace outcomes mention pool i⟩

/-- Python prefix test str.startswith, over explicit character lists so that
it is structurally recursive and kernel-computable. -/
def listStartsWith : List Char → List Char → Bool
  | _, [] => true
  | [], _ :: _ => false
  | c :: s, p :: ps => c == p && listStartsWith s ps

/-- Python str.split() with no arguments, src/main.py line 809: split on
whitespace runs, discarding empty pieces.  The accumulator holds the current
token reversed. -/
def pySplitChars : List Char → List Char → List String
  | acc, [] => if acc = [] then [] else [String.mk acc.reverse]
  | acc, c :: rest =>
    if c.isWhitespace then
      if acc = [] then pySplitChars [] rest
      else String.mk acc.reverse :: pySplitChars [] rest
    else pySplitChars (c :: acc) rest

def pySplit (s : String) : List String :=
  pySplitChars [] s.toList

/-- Validity of the digit part accepted by Python int(): nonempty, digits
possibly grouped by single underscores, with a digit at both ends. -/
def pyIntDigitsOk (cs : List Char) : Bool :=
  match cs with
  | [] => false
  | _ =>
    cs.head?.all (fun c => c.isDigit) &&
    cs.getLast?.all (fun c => c.isDigit) &&
    cs.all (fun c => c.isDigit || c == '_') &&
    (cs.zip cs.tail).all (fun p => !(p.1 == '_' && p.2 == '_'))

/-- Numeric value of an accepted digit list, underscores skipped. -/
def pyDigitsVal (cs : List Char) : Nat :=
  (cs.filter (fun c => c.isDigit)).foldl (fun n c => 10 * n + (c.toNat - 48)) 0

/-- Python int() applied to the quantity field, src/main.py line 927: strip
surrounding whitespace, then an optional single sign followed by base-10
digits; none models a ValueError. -/
def pyInt (s : String) : Option Int :=
  match ((s.toList.dropWhile (fun c => c.isWhitespace)).reverse.dropWhile
      (fun c => c.isWhitespace)).reverse with
  | '-' :: rest => if pyIntDigitsOk rest then some (-(Int.ofNat (pyDigitsVal rest))) else none
  | '+' :: rest => if pyIntDigitsOk rest then some (Int.ofNat (pyDigitsVal rest)) else none
  | cs => if pyIntDigitsOk cs then some (Int.ofNat (pyDigitsVal cs)) else none

/-- The fields of the inbound pyrogram Message that the handler reads: the
raw text (empty string models a missing text, which Python treats as falsy),
the chat id, whether the chat is a private conversation, the message id, and
the sender account id (none for anonymous or channel-authored posts). -/
structure Msg where
  text : String
  chatId : Int
  chatIsPrivate : Bool
  msgId : Nat
  fromUser : Option Int

/-- The configuration state the handler reads (the BotConfig properties used
by universal_message_handler; current_spam_command mirrors
config.spam_command). -/
structure Cfg where
  authorized_users : List Int
  authorized_chats : List Int
  spam_command : String
  spam_messages : List String
  user_secret_codes : TokenTable

/-- is_authorized, src/main.py lines 275-277. -/
def is_authorized (cfg : Cfg) (user_id : Int) : Bool :=
  cfg.authorized_users.contains user_id

/-- is_chat_authorized, src/main.py lines 283-285. -/
def is_chat_authorized (cfg : Cfg) (chat_id : Int) : Bool :=
  cfg.authorized_chats.contains chat_id

/-- Result of a delete_messages call.  Every delete in the handler sits in
try/except arms that swallow MessageDeleteForbidden and any other error
(e.g. lines 787-793), so the outcome never influences control flow; it is
still carried in the environment so that independence can be stated. -/
inductive DeleteOutcome where
  | ok
  | forbidden
  | failed
deriving DecidableEq

/-- The fields of the resolved target profile read at src/main.py line 944. -/
structure TargetUser where
  first_name : Option String
  username : Option String

/-- Platform responses consumed by one handler pass: the message id the
platform assigns to the warning reply, the result of each delete_messages
call (indexed by call order, swallowed by the source), the result of
resolve_user_id(target_input) (line 936), the target profile from
client.get_users (none when it raises, line 943), whether get_chat_member
reports administrator or owner status (none when it raises, lines 952-963),
and the random permutations and per-send outcomes driving the dispatch. -/
structure Env where
  warnMsgId : Nat
  deleteOutcomes : Nat → DeleteOutcome
  resolveTarget : Option Int
  targetProfile : Option TargetUser
  adminStatus : Option Bool
  shuffles : Nat → List String
  sendOutcomes : Nat → SendOutcome

/-- spam_cmd = current_spam_command.lstrip of slashes, src/main.py line 773. -/
def spamCmdChars (cfg : Cfg) : List Char :=
  cfg.spam_command.toList.dropWhile (fun c => c = '/')

/-- Trigger match, src/main.py line 776: the text starts with the spam
command with or without its leading slash. -/
def commandMatches (cfg : Cfg) (text : String) : Prop :=
  listStartsWith text.toList ('/' :: spamCmdChars cfg) = true ∨
  listStartsWith text.toList (spamCmdChars cfg) = true

instance (cfg : Cfg) (text : String) : Decidable (commandMatches cfg text) := by
  unfold commandMatches
  infer_instance

/-- Python or-chaining over possibly-empty strings used at src/main.py line
944 (an empty first_name or username is falsy and falls through). -/
def pyStrOr (a : Option String) (b : String) : String :=
  match a with
  | some s => if s = "" then b else s
  | none => b

/-- The mention artifact built at src/main.py lines 944-945. -/
def mentionHtml (target_id : Int) (tu : TargetUser) : String :=
  "<a href=\"tg://user?id=" ++ toString target_id ++ "\">" ++
    pyStrOr tu.first_name (pyStrOr tu.username (toString target_id)) ++ "</a>"

/-- The two-phase rejection cleanup shared by the three warning rejections
(src/main.py lines 831-851, 860-880, 891-912): delete the trigger, post the
warning, sleep 20 seconds, delete the warning. -/
def rejectTrace (env : Env) (msg : Msg) (k : WarnKind) : List Event :=
  [Event.deleteReq msg.chatId msg.msgId, Event.warn k env.warnMsgId,
   Event.sleep 20, Event.deleteReq msg.chatId env.warnMsgId]

/-- Dispatch stage, src/main.py lines 925-1006, entered after the trigger
message has been deleted: validate quantity (silent abort on bad values),
resolve the target (a result of 0 is falsy like None, line 937), fetch its
profile, require administrator or owner role, require a nonempty template
list, then build the pool and run the send loop. -/
def dispatch_stage (cfg : Cfg) (env : Env) (quantity_input : String) : List Event :=
  match pyInt quantity_input with
  | none => []
  | some quantity =>
    if quantity < 1 ∨ quantity > 100 then []
    else
      match env.resolveTarget with
      | none => []
      | some target_id =>
        if target_id = 0 then []
        else
          match env.targetProfile with
          | none => []
          | some tu =>
            if env.adminStatus ≠ some true then []
            else if cfg.spam_messages = [] then []
            else
              (send_spam_loop env.sendOutcomes (mentionHtml target_id tu) 0
                (build_message_pool env.shuffles cfg.spam_messages quantity.toNat)).2

/-- Final authorization stage, src/main.py lines 889-923: the account bound
to the code must be in authorized_users, else the two-phase rejection; on
success the trigger is deleted and dispatch proceeds. -/
def final_auth_stage (cfg : Cfg) (env : Env) (msg : Msg) (code_user_id : Int) : List Event :=
  if ¬ is_authorized cfg code_user_id then rejectTrace env msg WarnKind.notAuthorized
  else
    Event.deleteReq msg.chatId msg.msgId ::
      dispatch_stage cfg env ((pySplit msg.text).getD 3 "")

/-- universal_message_handler, src/main.py lines 764-1006, as the list of
platform effects of one pass.  Stages in source order: empty or non-matching
text is ignored; a non-private chat outside authorized_chats gets its
trigger deleted (errors swallowed) and nothing else; a private chat gets the
informational reply; fewer than 4 whitespace tokens delete the trigger; an
unknown secret code (or one whose bound id is 0, which Python treats as
falsy) triggers the two-phase rejection; a non-anonymous sender differing
from the bound account triggers it as well; then the final authorization and
dispatch stages run. -/
def universal_message_handler (cfg : Cfg) (env : Env) (msg : Msg) : List Event :=
  if msg.text = "" then []
  else if ¬ commandMatches cfg msg.text then []
  else if ¬ msg.chatIsPrivate ∧ ¬ is_chat_authorized cfg msg.chatId then
    [Event.deleteReq msg.chatId msg.msgId]
  else if msg.chatIsPrivate then [Event.replyHelp]
  else if (pySplit msg.text).length < 4 then [Event.deleteReq msg.chatId msg.msgId]
  else
    match BotConfig.get_user_id_from_code cfg.user_secret_codes
        ((pySplit msg.text).getD 1 "") with
    | none => rejectTrace env msg WarnKind.invalidCode
    | some code_user_id =>
      if code_user_id = 0 then rejectTrace env msg WarnKind.invalidCode
      else
        match msg.fromUser with
        | some sender =>
          if sender ≠ code_user_id then rejectTrace env msg WarnKind.senderMismatch
          else final_auth_stage cfg env msg code_user_id
        | none => final_auth_stage cfg env msg code_user_id

/-- Number of send_message attempts in a trace. -/
def sendAttemptCount (evs : List Event) : Nat :=
  evs.countP (fun e => match e with | Event.sendAttempt _ => true | _ => false)

/-- Number of warning replies in a trace. -/
def warnCount (evs : List Event) : Nat :=
  evs.countP (fun e => match e with | Event.warn _ _ => true | _ => false)

theorem handler_gate_chat (cfg : Cfg) (env : Env) (msg : Msg)
    (hne : msg.text ≠ "") (hmatch : commandMatches cfg msg.text)
    (hpriv : msg.chatIsPrivate = false)
    (hchat : is_chat_authorized cfg msg.chatId = false) :
    universal_message_handler cfg env msg = [Event.deleteReq msg.chatId msg.msgId] := by
  unfold universal_message_handler
  rw [if_neg hne, if_neg (not_not_intro hmatch)]
  rw [if_pos]
  constructor
  · simp [hpriv]
  · simp [hchat]

/-- C2: a command (nonempty text matching the spam command) in a non-private
chat outside authorized_chats is rejected at the chat gate before any later
stage: the whole trace is one best-effort deletion of the trigger message,
hence zero dispatch sends and no warning, and the trace is unchanged under
any outcome of the deletion call (platform errors on deletion are
swallowed). -/
theorem C2_unauthorized_chat_gate (cfg : Cfg) (env : Env) (msg : Msg)
    (hne : msg.text ≠ "") (hmatch : commandMatches cfg msg.text)
    (hpriv : msg.chatIsPrivate = false)
    (hchat : is_chat_authorized cfg msg.chatId = false) :
    universal_message_handler cfg env msg = [Event.deleteReq msg.chatId msg.msgId] ∧
    sendAttemptCount (universal_message_handler cfg env msg) = 0 ∧
    warnCount (universal_message_handler cfg env msg) = 0 ∧
    (∀ d : Nat → DeleteOutcome,
      universal_message_handler cfg
        (Env.mk env.warnMsgId d env.resolveTarget env.targetProfile env.adminStatus
          env.shuffles env.sendOutcomes) msg =
      universal_message_handler cfg env msg) := by
  have htrace := handler_gate_chat cfg env msg hne hmatch hpriv hchat
  refine ⟨htrace, by rw [htrace]; rfl, by rw [htrace]; rfl, ?_⟩
  intro d
  rw [htrace,
    handler_gate_chat cfg
      (Env.mk env.warnMsgId d env.resolveTarget env.targetProfile env.adminStatus
        env.shuffles env.sendOutcomes) msg hne hmatch hpriv hchat]

/-- Concrete configuration for witnesses: account 42 authorized, chat 100
authorized, default command, one template, token ABC123 bound to 42. -/
def cfgW : Cfg :=
  Cfg.mk [42] [100] "/s" ["Hi \x7bmention\x7d!"] [("ABC123", 42)]

/-- Concrete configuration with no authorized chats. -/
def cfgU : Cfg :=
  Cfg.mk [42] [] "/s" ["Hi \x7bmention\x7d!"] [("ABC123", 42)]

/-- Concrete platform environment for witnesses. -/
def envW : Env :=
  Env.mk 99 (fun _ => DeleteOutcome.ok) (some 1000)
    (some (TargetUser.mk (some "Alice") none)) (some true)
    (fun _ => ["Hi \x7bmention\x7d!"]) (fun _ => SendOutcome.success)

/-- Witness for C2 at the spec scenario: chat 100 not authorized, trigger
deleted, zero sends, no warning. -/
theorem C2_unauthorized_chat_gate_witness :
    universal_message_handler cfgU envW (Msg.mk "/s ABC123 @alice 3" 100 false 5 (some 42)) =
      [Event.deleteReq 100 5] ∧
    sendAttemptCount (universal_message_handler cfgU envW
      (Msg.mk "/s ABC123 @alice 3" 100 false 5 (some 42))) = 0 ∧
    warnCount (universal_message_handler cfgU envW
      (Msg.mk "/s ABC123 @alice 3" 100 false 5 (some 42))) = 0 ∧
    (∀ d : Nat → DeleteOutcome,
      universal_message_handler cfgU
        (Env.mk envW.warnMsgId d envW.resolveTarget envW.targetProfile envW.adminStatus
          envW.shuffles envW.sendOutcomes)
        (Msg.mk "/s ABC123 @alice 3" 100 false 5 (some 42)) =
      universal_message_handler cfgU envW
        (Msg.mk "/s ABC123 @alice 3" 100 false 5 (some 42))) :=
  C2_unauthorized_chat_gate cfgU envW (Msg.mk "/s ABC123 @alice 3" 100 false 5 (some 42))
    (by decide) (by left; decide) (by decide) (by decide)

theorem handler_past_gate (cfg : Cfg) (env : Env) (msg : Msg)
    (hne : msg.text ≠ "") (hmatch : commandMatches cfg msg.text)
    (hpriv : msg.chatIsPrivate = false)
    (hchat : is_chat_authorized cfg msg.chatId = true)
    (hlen : 4 ≤ (pySplit msg.text).length) :
    universal_message_handler cfg env msg =
      (match BotConfig.get_user_id_from_code cfg.user_secret_codes
          ((pySplit msg.text).getD 1 "") with
       | none => rejectTrace env msg WarnKind.invalidCode
       | some code_user_id =>
         if code_user_id = 0 then rejectTrace env msg WarnKind.invalidCode
         else
           match msg.fromUser with
           | some sender =>
             if sender ≠ code_user_id then rejectTrace env msg WarnKind.senderMismatch
             else final_auth_stage cfg env msg code_user_id
           | none => final_auth_stage cfg env msg code_user_id) := by
  unfold universal_message_handler
  rw [if_neg hne, if_neg (not_not_intro hmatch)]
  rw [if_neg (by intro hcontra; exact hcontra.2 (by simp [hchat]))]
  rw [if_neg (by simp [hpriv]), if_neg (by omega)]

/-- C6: a command in an authorized non-private chat whose second whitespace
token is not a key of the token table is rejected with the two-phase
cleanup: trigger deleted, exactly one warning posted, the warning deleted
after a sleep of exactly 20 seconds, and zero dispatch sends. -/
theorem C6_unknown_token_two_phase (cfg : Cfg) (env : Env) (msg : Msg)
    (hne : msg.text ≠ "") (hmatch : commandMatches cfg msg.text)
    (hpriv : msg.chatIsPrivate = false)
    (hchat : is_chat_authorized cfg msg.chatId = true)
    (hlen : 4 ≤ (pySplit msg.text).length)
    (hcode : BotConfig.get_user_id_from_code cfg.user_secret_codes
      ((pySplit msg.text).getD 1 "") = none) :
    universal_message_handler cfg env msg =
      [Event.deleteReq msg.chatId msg.msgId, Event.warn WarnKind.invalidCode env.warnMsgId,
       Event.sleep 20, Event.deleteReq msg.chatId env.warnMsgId] ∧
    sendAttemptCount (universal_message_handler cfg env msg) = 0 ∧
    warnCount (universal_message_handler cfg env msg) = 1 := by
  have htrace : universal_message_handler cfg env msg =
      [Event.deleteReq msg.chatId msg.msgId, Event.warn WarnKind.invalidCode env.warnMsgId,
       Event.sleep 20, Event.deleteReq msg.chatId env.warnMsgId] := by
    rw [handler_past_gate cfg env msg hne hmatch hpriv hchat hlen]
    simp only [hcode, rejectTrace]
  exact ⟨htrace, by rw [htrace]; rfl, by rw [htrace]; rfl⟩

/-- Witness for C6: spec scenario with an unknown token in authorized chat
100. -/
theorem C6_unknown_token_two_phase_witness :
    universal_message_handler cfgW envW (Msg.mk "/s WRONG @alice 3" 100 false 5 (some 42)) =
      [Event.deleteReq 100 5, Event.warn WarnKind.invalidCode 99,
       Event.sleep 20, Event.deleteReq 100 99] ∧
    sendAttemptCount (universal_message_handler cfgW envW
      (Msg.mk "/s WRONG @alice 3" 100 false 5 (some 42))) = 0 ∧
    warnCount (universal_message_handler cfgW envW
      (Msg.mk "/s WRONG @alice 3" 100 false 5 (some 42))) = 1 :=
  C6_unknown_token_two_phase cfgW envW (Msg.mk "/s WRONG @alice 3" 100 false 5 (some 42))
    (by decide) (by left; decide) (by decide) (by decide) (by decide) (by decide)

/-- C1: a command in an authorized non-private chat whose secret code
resolves to some account and whose identifiable (non-anonymous) sender
differs from that account is rejected with the two-phase cleanup (trigger
deleted, a warning posted, warning deleted after the fixed 20 second delay)
and zero dispatch sends occur; no hypothesis constrains authorized_users, so
this holds whether or not the bound account is authorized.  When the bound
account id is 0 (falsy in Python) the source takes the invalid-code branch
instead of the mismatch branch, hence the warning kind is existential. -/
theorem C1_sender_mismatch_rejected (cfg : Cfg) (env : Env) (msg : Msg)
    (code_user_id sender : Int)
    (hne : msg.text ≠ "") (hmatch : commandMatches cfg msg.text)
    (hpriv : msg.chatIsPrivate = false)
    (hchat : is_chat_authorized cfg msg.chatId = true)
    (hlen : 4 ≤ (pySplit msg.text).length)
    (hcode : BotConfig.get_user_id_from_code cfg.user_secret_codes
      ((pySplit msg.text).getD 1 "") = some code_user_id)
    (hsender : msg.fromUser = some sender)
    (hmis : sender ≠ code_user_id) :
    (∃ k : WarnKind,
      universal_message_handler cfg env msg =
        [Event.deleteReq msg.chatId msg.msgId, Event.warn k env.warnMsgId,
         Event.sleep 20, Event.deleteReq msg.chatId env.warnMsgId]) ∧
    sendAttemptCount (universal_message_handler cfg env msg) = 0 := by
  by_cases hz : code_user_id = 0
  · have htrace : universal_message_handler cfg env msg =
        rejectTrace env msg WarnKind.invalidCode := by
      rw [handler_past_gate cfg env msg hne hmatch hpriv hchat hlen]
      simp only [hcode]
      rw [if_pos hz]
    exact ⟨⟨WarnKind.invalidCode, htrace⟩, by rw [htrace]; rfl⟩
  · have htrace : universal_message_handler cfg env msg =
        rejectTrace env msg WarnKind.senderMismatch := by
      rw [handler_past_gate cfg env msg hne hmatch hpriv hchat hlen]
      simp only [hcode]
      rw [if_neg hz]
      simp only [hsender]
      rw [if_pos hmis]
    exact ⟨⟨WarnKind.senderMismatch, htrace⟩, by rw [htrace]; rfl⟩

/-- Witness for C1: token ABC123 is bound to 42 but sender 77 issues the
command; 42 is deliberately NOT in authorized_users here, showing the
mismatch rejection happens regardless of account authorization. -/
theorem C1_sender_mismatch_rejected_witness :
    (∃ k : WarnKind,
      universal_message_handler (Cfg.mk [] [100] "/s" ["Hi \x7bmention\x7d!"] [("ABC123", 42)])
        envW (Msg.mk "/s ABC123 @alice 3" 100 false 5 (some 77)) =
        [Event.deleteReq 100 5, Event.warn k 99, Event.sleep 20, Event.deleteReq 100 99]) ∧
    sendAttemptCount (universal_message_handler
      (Cfg.mk [] [100] "/s" ["Hi \x7bmention\x7d!"] [("ABC123", 42)])
      envW (Msg.mk "/s ABC123 @alice 3" 100 false 5 (some 77))) = 0 :=
  C1_sender_mismatch_rejected (Cfg.mk [] [100] "/s" ["Hi \x7bmention\x7d!"] [("ABC123", 42)])
    envW (Msg.mk "/s ABC123 @alice 3" 100 false 5 (some 77)) 42 77
    (by decide) (by left; decide) (by decide) (by decide) (by decide) (by decide)
    (by decide) (by decide)

/-- C7: a command that passes every authorization check (authorized chat,
known code with nonzero bound account, matching or absent sender, authorized
account) but whose quantity field fails int() or parses outside [1,100]
aborts silently right after the trigger deletion: the trace is exactly the
trigger deletion, with zero sends and no warning posted. -/
theorem C7_invalid_quantity_silent (cfg : Cfg) (env : Env) (msg : Msg)
    (code_user_id : Int)
    (hne : msg.text ≠ "") (hmatch : commandMatches cfg msg.text)
    (hpriv : msg.chatIsPrivate = false)
    (hchat : is_chat_authorized cfg msg.chatId = true)
    (hlen : 4 ≤ (pySplit msg.text).length)
    (hcode : BotConfig.get_user_id_from_code cfg.user_secret_codes
      ((pySplit msg.text).getD 1 "") = some code_user_id)
    (hnz : code_user_id ≠ 0)
    (hsender : msg.fromUser = none ∨ msg.fromUser = some code_user_id)
    (hauth : is_authorized cfg code_user_id = true)
    (hq : pyInt ((pySplit msg.text).getD 3 "") = none ∨
      ∃ q : Int, pyInt ((pySplit msg.text).getD 3 "") = some q ∧ (q < 1 ∨ 100 < q)) :
    universal_message_handler cfg env msg = [Event.deleteReq msg.chatId msg.msgId] ∧
    sendAttemptCount (universal_message_handler cfg env msg) = 0 ∧
    warnCount (universal_message_handler cfg env msg) = 0 := by
  have hdp : dispatch_stage cfg env ((pySplit msg.text).getD 3 "") = [] := by
    unfold dispatch_stage
    cases hq with
    | inl h => simp only [h]
    | inr h =>
      obtain ⟨q, hq1, hq2⟩ := h
      simp only [hq1]
      rw [if_pos]
      exact (by cases hq2 with
        | inl h2 => exact Or.inl h2
        | inr h2 => exact Or.inr h2)
  have htrace : universal_message_handler cfg env msg =
      [Event.deleteReq msg.chatId msg.msgId] := by
    rw [handler_past_gate cfg env msg hne hmatch hpriv hchat hlen]
    simp only [hcode]
    rw [if_neg hnz]
    cases hsender with
    | inl h =>
      simp only [h, final_auth_stage]
      rw [if_neg (by simp [hauth]), hdp]
    | inr h =>
      simp only [h, final_auth_stage]
      rw [if_neg (fun hcontra => hcontra rfl), if_neg (by simp [hauth]), hdp]
  exact ⟨htrace, by rw [htrace]; rfl, by rw [htrace]; rfl⟩

/-- Witness for C7: quantity 0 with an otherwise fully authorized command in
chat 100; only the trigger deletion happens. -/
theorem C7_invalid_quantity_silent_witness :
    universal_message_handler cfgW envW (Msg.mk "/s ABC123 @alice 0" 100 false 5 (some 42)) =
      [Event.deleteReq 100 5] ∧
    sendAttemptCount (universal_message_handler cfgW envW
      (Msg.mk "/s ABC123 @alice 0" 100 false 5 (some 42))) = 0 ∧
    warnCount (universal_message_handler cfgW envW
      (Msg.mk "/s ABC123 @alice 0" 100 false 5 (some 42))) = 0 :=
  C7_invalid_quantity_silent cfgW envW (Msg.mk "/s ABC123 @alice 0" 100 false 5 (some 42)) 42
    (by decide) (by left; decide) (by decide) (by decide) (by decide) (by decide)
    (by decide) (Or.inr (by decide)) (by decide)
    (Or.inr ⟨0, by decide, Or.inl (by decide)⟩)

/-- The four rejection cases named by the spec. -/
inductive RejectCase where
  | chatUnauth
  | invalidToken
  | senderMismatch
  | accountUnauth
deriving DecidableEq

/-- Conditions under which an inbound command (nonempty matching text in a
non-private chat) falls in each rejection case. -/
def rejectCaseHolds (cfg : Cfg) (msg : Msg) (code_user_id sender : Int) :
    RejectCase → Prop
  | .chatUnauth => is_chat_authorized cfg msg.chatId = false
  | .invalidToken =>
      is_chat_authorized cfg msg.chatId = true ∧ 4 ≤ (pySplit msg.text).length ∧
      BotConfig.get_user_id_from_code cfg.user_secret_codes
        ((pySplit msg.text).getD 1 "") = none
  | .senderMismatch =>
      is_chat_authorized cfg msg.chatId = true ∧ 4 ≤ (pySplit msg.text).length ∧
      BotConfig.get_user_id_from_code cfg.user_secret_codes
        ((pySplit msg.text).getD 1 "") = some code_user_id ∧
      code_user_id ≠ 0 ∧ msg.fromUser = some sender ∧ sender ≠ code_user_id
  | .accountUnauth =>
      is_chat_authorized cfg msg.chatId = true ∧ 4 ≤ (pySplit msg.text).length ∧
      BotConfig.get_user_id_from_code cfg.user_secret_codes
        ((pySplit msg.text).getD 1 "") = some code_user_id ∧
      code_user_id ≠ 0 ∧ (msg.fromUser = none ∨ msg.fromUser = some code_user_id) ∧
      is_authorized cfg code_user_id = false

/-- The cleanup the source actually performs in each rejection case. -/
def rejectCaseTrace (env : Env) (msg : Msg) : RejectCase → List Event
  | .chatUnauth => [Event.deleteReq msg.chatId msg.msgId]
  | .invalidToken => rejectTrace env msg WarnKind.invalidCode
  | .senderMismatch => rejectTrace env msg WarnKind.senderMismatch
  | .accountUnauth => rejectTrace env msg WarnKind.notAuthorized

/-- Counterexample to C8 as stated: at this concrete chat-not-authorized
rejection the trigger is deleted but NO transient warning is posted, so the
claim that all four rejection cases post a warning fails. -/
theorem C8_counterexample :
    is_chat_authorized cfgU 100 = false ∧
    universal_message_handler cfgU envW (Msg.mk "/s ABC123 @alice 3" 100 false 5 (some 42)) =
      [Event.deleteReq 100 5] ∧
    warnCount (universal_message_handler cfgU envW
      (Msg.mk "/s ABC123 @alice 3" 100 false 5 (some 42))) = 0 := by
  refine ⟨by decide, by decide, by decide⟩

/-- C8 amended: every rejected command is cleaned up with zero dispatch
sends, but only the token-invalid, sender-mismatch and
account-not-authorized cases post the transient warning that is deleted
after the fixed 20 second delay; the chat-not-authorized case only deletes
the trigger and posts no warning. -/
theorem C8_rejection_cleanup_amended (cfg : Cfg) (env : Env) (msg : Msg)
    (code_user_id sender : Int) (rc : RejectCase)
    (hne : msg.text ≠ "") (hmatch : commandMatches cfg msg.text)
    (hpriv : msg.chatIsPrivate = false)
    (hcase : rejectCaseHolds cfg msg code_user_id sender rc) :
    universal_message_handler cfg env msg = rejectCaseTrace env msg rc ∧
    sendAttemptCount (universal_message_handler cfg env msg) = 0 ∧
    warnCount (universal_message_handler cfg env msg) =
      (if rc = RejectCase.chatUnauth then 0 else 1) := by
  cases rc with
  | chatUnauth =>
    have htrace := handler_gate_chat cfg env msg hne hmatch hpriv hcase
    exact ⟨htrace, by rw [htrace]; rfl, by rw [htrace]; rfl⟩
  | invalidToken =>
    obtain ⟨hchat, hlen, hcode⟩ := hcase
    have htrace : universal_message_handler cfg env msg =
        rejectCaseTrace env msg RejectCase.invalidToken := by
      rw [handler_past_gate cfg env msg hne hmatch hpriv hchat hlen]
      simp only [hcode, rejectCaseTrace]
    exact ⟨htrace, by rw [htrace]; rfl, by rw [htrace]; rfl⟩
  | senderMismatch =>
    obtain ⟨hchat, hlen, hcode, hnz, hfrom, hmis⟩ := hcase
    have htrace : universal_message_handler cfg env msg =
        rejectCaseTrace env msg RejectCase.senderMismatch := by
      rw [handler_past_gate cfg env msg hne hmatch hpriv hchat hlen]
      simp only [hcode]
      rw [if_neg hnz]
      simp only [hfrom]
      rw [if_pos hmis]
      rfl
    exact ⟨htrace, by rw [htrace]; rfl, by rw [htrace]; rfl⟩
  | accountUnauth =>
    obtain ⟨hchat, hlen, hcode, hnz, hfrom, hauth⟩ := hcase
    have htrace : universal_message_handler cfg env msg =
        rejectCaseTrace env msg RejectCase.accountUnauth := by
      rw [handler_past_gate cfg env msg hne hmatch hpriv hchat hlen]
      simp only [hcode]
      rw [if_neg hnz]
      cases hfrom with
      | inl h =>
        simp only [h, final_auth_stage]
        rw [if_pos (by simp [hauth])]
        rfl
      | inr h =>
        simp only [h, final_auth_stage]
        rw [if_neg (fun hcontra => hcontra rfl), if_pos (by simp [hauth])]
        rfl
    exact ⟨htrace, by rw [htrace]; rfl, by rw [htrace]; rfl⟩

/-- Witness for the amended C8 at the account-not-authorized case: token
ABC123 resolves to 42, the sender matches, but 42 is not in
authorized_users; the two-phase cleanup runs with one warning. -/
theorem C8_rejection_cleanup_amended_witness :
    universal_message_handler (Cfg.mk [] [100] "/s" ["Hi \x7bmention\x7d!"] [("ABC123", 42)])
      envW (Msg.mk "/s ABC123 @alice 3" 100 false 5 (some 42)) =
      rejectCaseTrace envW (Msg.mk "/s ABC123 @alice 3" 100 false 5 (some 42))
        RejectCase.accountUnauth ∧
    sendAttemptCount (universal_message_handler
      (Cfg.mk [] [100] "/s" ["Hi \x7bmention\x7d!"] [("ABC123", 42)])
      envW (Msg.mk "/s ABC123 @alice 3" 100 false 5 (some 42))) = 0 ∧
    warnCount (universal_message_handler
      (Cfg.mk [] [100] "/s" ["Hi \x7bmention\x7d!"] [("ABC123", 42)])
      envW (Msg.mk "/s ABC123 @alice 3" 100 false 5 (some 42))) =
      (if RejectCase.accountUnauth = RejectCase.chatUnauth then 0 else 1) :=
  C8_rejection_cleanup_amended (Cfg.mk [] [100] "/s" ["Hi \x7bmention\x7d!"] [("ABC123", 42)])
    envW (Msg.mk "/s ABC123 @alice 3" 100 false 5 (some 42)) 42 42 RejectCase.accountUnauth
    (by decide) (by left; decide) (by decide)
    ⟨by decide, by decide, by decide, by decide, Or.inr (by decide), by decide⟩
